import Mathlib

/-!
# olxcli: bus-fault and no-clear analysis commands

A shallow embedding of `cmd/noclear/noclear.go` and `cmd/busfaults/busfaults.go`.

* `float64` values are modelled by `F64`: NaN, the two infinities and the finite
  values with their rational order. Only comparisons are used by the commands.
* The simulation engine (`goolx`), the operating system and the Go standard
  library are outside the repository. They enter as records of functions
  (`Engine`, `Host`); the commands are functions of those records.
* A run-time panic (slice or index out of range) is the value `none`.
-/

set_option autoImplicit false

namespace Olxcli

/-! ## float64 -/

/-- The values of a Go `float64`, as far as comparisons can tell them apart. -/
inductive F64 where
  | nan
  | negInf
  | fin (q : ℚ)
  | posInf
  deriving DecidableEq

namespace F64

/-- Go `a < b` on float64: false as soon as one side is NaN. -/
def lt : F64 → F64 → Bool
  | nan, _ => false
  | _, nan => false
  | negInf, negInf => false
  | negInf, _ => true
  | fin _, negInf => false
  | fin a, fin b => decide (a < b)
  | fin _, posInf => true
  | posInf, _ => false

/-- Go `a <= b` on float64: false as soon as one side is NaN. -/
def le : F64 → F64 → Bool
  | nan, _ => false
  | _, nan => false
  | negInf, _ => true
  | fin _, negInf => false
  | fin a, fin b => decide (a ≤ b)
  | fin _, posInf => true
  | posInf, posInf => true
  | posInf, _ => false

/-- Go `a > b` on float64. -/
def gt (a b : F64) : Bool := lt b a

/-- Go `a >= b` on float64. -/
def ge (a b : F64) : Bool := le b a

/-- The zero value of a `float64` variable. -/
def zero : F64 := fin 0

/-- Whether the value is NaN. -/
def isNaN : F64 → Bool
  | nan => true
  | _ => false

end F64

/-! ## Types of the `goolx` binding used by the commands -/

/-- The constants of `goolx.FltConn` named by the two commands. -/
inductive FltConn where
  | ABC | BCG | CAG | ABG | AG | BG | CG | BC | CA | AB
  deriving DecidableEq, Repr

/-- The fields of `model.Bus` read by the commands. -/
structure Bus where
  Number : Int
  Name : String
  KVNominal : F64
  Area : Int
  Zone : Int
  deriving DecidableEq

/-- The fields of `goolx.SteppedEvent` read by the commands. -/
structure SteppedEvent where
  Time : F64
  Current : F64
  FaultDescription : String
  deriving DecidableEq

/-- A `goolx.Phasor`, seen through its two accessors `Mag()` and `Ang()`. -/
structure Phasor where
  Mag : F64
  Ang : F64
  deriving DecidableEq

/-- What `goolx.NewSteppedEvent` is given: the connection, the close-in and
all-events options, and the fault impedance when `SteppedEventRX` is passed. -/
structure SteppedEventConfig where
  conn : FltConn
  closeIn : Bool
  all : Bool
  rx : Option (F64 × F64)
  deriving DecidableEq

/-- What `goolx.NewFaultConfig` is given: the connections, the clear-previous and
close-in options, and the fault impedance when `FaultRX` is passed. -/
structure FaultConfig where
  conns : List FltConn
  clearPrev : Bool
  closeIn : Bool
  rx : Option (F64 × F64)
  deriving DecidableEq

/-- The errors a command returns. `host` wraps an error handed back by the
operating system, the regular-expression compiler or the engine. -/
inductive Err where
  | noInputFile
  | notAFile (file : String)
  | noFaultConnection
  | unknownFaultConnection (upper : String)
  | host (msg : String)
  deriving DecidableEq

/-- A call made on the engine client, in the order the command makes it. -/
inductive EngineCall where
  | NewClient
  | Release
  | LoadDataFile (file : String)
  | NextEquipment
  | GetBus (hnd : Int)
  | DoSteppedEvent (hnd : Int) (cfg : SteppedEventConfig)
  | NextSteppedEvent
  | NextBusEquipment (hnd : Int)
  | DoFault (hnd : Int) (cfg : FaultConfig)
  | NextFault
  | FaultDescription (indx : Nat)
  | GetSCVoltageSeq (hnd : Int)
  | GetSCVoltagePhase (hnd : Int)
  | GetSCCurrentSeq
  | GetSCCurrentPhase
  deriving DecidableEq

/-- The engine as the commands see it. Every answer is a function of the
arguments of the call and of the fault in effect (the handle it was applied to,
the index of the fault event being visited).

* `DoSteppedEvent h cfg = .ok steps`: the call returns no error and
  `NextSteppedEvent` then yields `steps`.
* `DoFault h cfg = .ok is`: the call returns no error and `NextFault(1)` then
  yields the fault indices `is`. -/
structure Engine where
  LoadDataFile : String → Option String
  busHandles : List Int
  GetBus : Int → Except String Bus
  DoSteppedEvent : Int → SteppedEventConfig → Except String (List SteppedEvent)
  branchHandles : Int → List Int
  DoFault : Int → FaultConfig → Except String (List Nat)
  FaultDescription : Int → Nat → String
  GetSCVoltage : Bool → Int → Nat → Except String (Phasor × Phasor × Phasor)
  GetSCCurrent : Bool → Int → Nat → Except String (Phasor × Phasor × Phasor)

/-- The operating system and the Go standard library as the commands see them:
`strings.ToUpper`, `strings.ToLower`, `os.Stat` (an error, or whether the path
is a directory), `regexp.Compile` (an error, or the `MatchString` of the
pattern), `os.Create` (an error or nothing), and the `fmt.Sprintf` verbs
`%q`, `%d`, `%0.2f`, `%0.1f`. -/
structure Host where
  ToUpper : String → String
  ToLower : String → String
  Stat : String → Except String Bool
  Compile : String → Except String (String → Bool)
  Create : String → Option String
  fmtQ : String → String
  fmtD : Int → String
  fmtF2 : F64 → String
  fmtF1 : F64 → String

/-- One call of `Write` on the report writer: a CSV record, or the bytes of one
tab-separated line. -/
inductive Row where
  | record (fields : List String)
  | line (text : String)
  deriving DecidableEq

/-- The row `cw.Write(fields)` hands to the CSV writer. -/
def csvRow (fields : List String) : Row := Row.record fields

/-- The row `tw.Write([]byte(strings.Join(fields, "\t") + "\n"))` hands to the
tab writer. -/
def tabRow (fields : List String) : Row := Row.line ("\t".intercalate fields ++ "\n")

/-- Go `strings.HasSuffix`. -/
def hasSuffix (s suffix : String) : Bool := suffix.data.isSuffixOf s.data

/-- How a command ends: it returns `nil`, returns an error, or panics. -/
inductive Exit where
  | ok
  | error (e : Err)
  | panic
  deriving DecidableEq

/-- The state a command threads through its loops: the engine calls made so
far, the lines printed on standard error, and the package variable `results`. -/
structure St (ρ : Type) where
  calls : List EngineCall
  stderr : List String
  results : List ρ

namespace St

/-- Record an engine call. -/
def call {ρ : Type} (st : St ρ) (c : EngineCall) : St ρ :=
  { st with calls := st.calls ++ [c] }

/-- The statement `fmt.Fprintln(os.Stderr, err)`. -/
def log {ρ : Type} (st : St ρ) (e : String) : St ρ :=
  { st with stderr := st.stderr ++ [e] }

/-- The statement `results = append(results, res)`. -/
def push {ρ : Type} (st : St ρ) (res : ρ) : St ρ :=
  { st with results := st.results ++ [res] }

end St

/-- What a run of a command leaves behind: how it ended, the engine calls it
made, its standard error, the package variable `results`, and the rows
written to the report. -/
structure Run (ρ : Type) where
  exit : Exit
  calls : List EngineCall
  stderr : List String
  results : List ρ
  rows : List Row

/-- The state of a report writer together with its `sync.Once`: whether the
once has fired, and the rows written so far. -/
structure Writer where
  once : Bool
  rows : List Row

/-- The loop `for it.Next() { xs = append(xs, it.Data()) }` over an iterator
yielding `ys`, starting from `xs`. -/
def appendEach {α : Type} (xs ys : List α) : List α :=
  ys.foldl (fun acc y => acc ++ [y]) xs

/-- The block compiling the regular-expression flag: `re` stays `nil` for the
empty pattern. -/
def compileFlag (h : Host) (regexFlag : String) : Except String (Option (String → Bool)) :=
  if regexFlag ≠ "" then
    match h.Compile regexFlag with
    | .error e => .error e
    | .ok m => .ok (some m)
  else .ok none

/-- The `case` of the output `switch`: CSV when the output file ends in `.csv`
or the format flag is `csv`, in any letter case. -/
def isCsv (h : Host) (outputFlag formatFlag : String) : Bool :=
  hasSuffix (h.ToLower outputFlag) ".csv" || h.ToLower formatFlag == "csv"

/-- The block opening the output file: `os.Create` is called only for a
non-empty output flag. -/
def createOutput (h : Host) (outputFlag : String) : Option String :=
  if outputFlag ≠ "" then h.Create outputFlag else none

/-- ASCII upper-casing: what `strings.ToUpper` does on an ASCII string. -/
def asciiToUpper (s : String) : String := String.mk (s.data.map Char.toUpper)

/-- ASCII lower-casing: what `strings.ToLower` does on an ASCII string. -/
def asciiToLower (s : String) : String := String.mk (s.data.map Char.toLower)

/-! ## `cmd/noclear` -/

namespace Noclear

/-- The flag variables of the `noclear` command. -/
structure Flags where
  fileFlag : String
  outputFlag : String
  formatFlag : String
  regexFlag : String
  vminFlag : F64
  vmaxFlag : F64
  areaFlag : Int
  zoneFlag : Int
  r : F64
  x : F64
  connFlag : List String
  branchesFlag : Bool
  verboseFlag : Bool
  clearedThresholdFlag : F64
  slowClearThresholdFlag : F64

/-- The `result` struct of `noclear.go`. -/
structure result where
  b : Bus
  cfg : SteppedEventConfig
  conn : FltConn
  cleared : Bool
  currentInit : F64
  currentFinal : F64
  maxTime : F64
  steps : List SteppedEvent
  note : String
  deriving DecidableEq

/-- The struct literal of `runNoClear`: `b`, `conn`, `cfg` and `steps` are
given, the other fields have their zero values. -/
def newResult (b : Bus) (conn : FltConn) (cfg : SteppedEventConfig)
    (steps : List SteppedEvent) : result :=
  { b := b, cfg := cfg, conn := conn, cleared := false, currentInit := F64.zero,
    currentFinal := F64.zero, maxTime := F64.zero, steps := steps, note := "" }

/-- The body of the `for i, s := range ...` loop of `process`, from index `i`
on, over the steps still to visit. -/
def processLoop (clearedThreshold : F64) : Nat → List SteppedEvent → result → result
  | _, [], r => r
  | i, s :: rest, r =>
    let r1 := if i = 0 then { r with currentInit := s.Current } else r
    let r2 := { r1 with currentFinal := s.Current, maxTime := s.Time }
    if s.Current.le clearedThreshold then { r2 with cleared := true }
    else processLoop clearedThreshold (i + 1) rest r2

/-- The method `(r *result) process()`. The slice expression
`r.steps[:len(r.steps)-1]` panics when `r.steps` is empty. -/
def process (clearedThreshold : F64) (r : result) : Option result :=
  if r.steps.length = 0 then none
  else some (processLoop clearedThreshold 0 (r.steps.take (r.steps.length - 1)) r)

/-- The `switch` of the classification loop of `runNoClear`. The `default`
case (`continue`) leaves the result as it is. -/
def classify (slowThreshold : F64) (verbose : Bool) (r : result) : result :=
  if !r.cleared then { r with note := "not cleared" }
  else if r.cleared && r.maxTime.ge slowThreshold then { r with note := "slow clearing" }
  else if verbose then { r with note := "okay" }
  else r

/-- The loop `for _, r := range results { r.process(); switch ... }`. -/
def classifyAll (fl : Flags) : List result → Option (List result)
  | [] => some []
  | r :: rs =>
    match process fl.clearedThresholdFlag r with
    | none => none
    | some r1 =>
      match classifyAll fl rs with
      | none => none
      | some rs1 => some (classify fl.slowClearThresholdFlag fl.verboseFlag r1 :: rs1)

/-- The `switch strings.ToUpper(conn)` of the connection loop of `runNoClear`:
the canonical connection of one user-supplied code, or the error of the
`default` case, which carries the upper-cased code. -/
def canonicalize (ToUpper : String → String) (conn : String) : Except Err FltConn :=
  let u := ToUpper conn
  if u = "ABC" then .ok FltConn.ABC
  else if u = "BCG" ∨ u = "CBG" then .ok FltConn.BCG
  else if u = "CAG" ∨ u = "ACG" then .ok FltConn.CAG
  else if u = "ABG" ∨ u = "BAG" then .ok FltConn.ABG
  else if u = "AG" then .ok FltConn.AG
  else if u = "BG" then .ok FltConn.BG
  else if u = "CG" then .ok FltConn.CG
  else if u = "BC" ∨ u = "CB" then .ok FltConn.BC
  else if u = "CA" ∨ u = "AC" then .ok FltConn.CA
  else if u = "AB" ∨ u = "BA" then .ok FltConn.AB
  else .error (Err.unknownFaultConnection (ToUpper conn))

/-- The loop `for _, conn := range connFlag` of `runNoClear`, from the
connections `fltConns` collected so far. -/
def fltConnsLoop (ToUpper : String → String) :
    List FltConn → List String → Except Err (List FltConn)
  | fltConns, [] => .ok fltConns
  | fltConns, conn :: rest =>
    match canonicalize ToUpper conn with
    | .error e => .error e
    | .ok c => fltConnsLoop ToUpper (fltConns ++ [c]) rest

/-- The four filters at the head of the bus loop of `runNoClear`, in their
order: `false` when one of them reaches its `continue`. -/
def selected (re : Option (String → Bool)) (vminFlag vmaxFlag : F64)
    (areaFlag zoneFlag : Int) (b : Bus) : Bool :=
  if (match re with
      | some m => !m b.Name
      | none => false) then false
  else if b.KVNominal.lt vminFlag || b.KVNominal.gt vmaxFlag then false
  else if areaFlag != 0 && b.Area != areaFlag then false
  else if zoneFlag != 0 && b.Zone != zoneFlag then false
  else true

/-- The stepped-event configuration built for one connection: `SteppedEventConn`,
`SteppedEventCloseIn`, `SteppedEventAll`, and `SteppedEventRX` when `r > 0 || x > 0`. -/
def newSteppedEvent (fl : Flags) (conn : FltConn) : SteppedEventConfig :=
  { conn := conn, closeIn := true, all := true,
    rx := if fl.r.gt F64.zero || fl.x.gt F64.zero then some (fl.r, fl.x) else none }

/-- The body of the loop `for branches.Next()` for the branch handle `brHnd`. -/
def branchBody (eng : Engine) (fl : Flags) (b : Bus) (conn : FltConn)
    (st : St result) (brHnd : Int) : St result :=
  let cfg := newSteppedEvent fl conn
  let st1 := st.call (EngineCall.DoSteppedEvent brHnd cfg)
  match eng.DoSteppedEvent brHnd cfg with
  | .error e => st1.log e
  | .ok evs =>
    let res := newResult b conn cfg []
    let st2 := st1.call EngineCall.NextSteppedEvent
    st2.push { res with steps := appendEach res.steps evs }

/-- The body of the loop `for _, conn := range fltConns` for the bus handle
`busHnd` and its bus `b`. -/
def connBody (eng : Engine) (fl : Flags) (busHnd : Int) (b : Bus)
    (st : St result) (conn : FltConn) : St result :=
  let cfg := newSteppedEvent fl conn
  let st1 := st.call (EngineCall.DoSteppedEvent busHnd cfg)
  match eng.DoSteppedEvent busHnd cfg with
  | .error e => st1.log e
  | .ok evs =>
    let res := newResult b conn cfg []
    let st2 := st1.call EngineCall.NextSteppedEvent
    let st3 := st2.push { res with steps := appendEach res.steps evs }
    if !fl.branchesFlag then st3
    else
      (eng.branchHandles busHnd).foldl (branchBody eng fl b conn)
        (st3.call (EngineCall.NextBusEquipment busHnd))

/-- The body of the loop `for buses.Next()` of `runNoClear`. -/
def busBody (eng : Engine) (fl : Flags) (re : Option (String → Bool))
    (fltConns : List FltConn) (st : St result) (busHnd : Int) : St result :=
  let st1 := st.call (EngineCall.GetBus busHnd)
  match eng.GetBus busHnd with
  | .error e => st1.log e
  | .ok b =>
    if !selected re fl.vminFlag fl.vmaxFlag fl.areaFlag fl.zoneFlag b then st1
    else fltConns.foldl (connBody eng fl busHnd b) st1

/-- The loop `for buses.Next()` of `runNoClear`, after `NextEquipment`. -/
def busLoop (eng : Engine) (fl : Flags) (re : Option (String → Bool))
    (fltConns : List FltConn) (st : St result) : St result :=
  eng.busHandles.foldl (busBody eng fl re fltConns) (st.call EngineCall.NextEquipment)

/-- The method `csvHeader`. -/
def csvHeader (_r : result) : List String :=
  ["Fault Description", "Bus Number", "Bus Name", "Bus kV", "Max OpTime (s)",
   "Fault Cleared", "Initial Current (A)", "Final Current (A)", "Note"]

/-- The method `csvValues`. The index expression `r.steps[0]` panics when
`r.steps` is empty. -/
def csvValues (h : Host) (r : result) : Option (List String) :=
  match r.steps with
  | [] => none
  | s0 :: _ =>
    some [h.fmtQ s0.FaultDescription, h.fmtD r.b.Number, r.b.Name, h.fmtF2 r.b.KVNominal,
          h.fmtF2 r.maxTime, (if r.cleared then "true" else "false"),
          h.fmtF2 r.currentInit, h.fmtF2 r.currentFinal, r.note]

/-- The body of a report loop: the header through the `sync.Once`, then the
values of `r`, each handed to the writer by `wr`. -/
def writeResult (h : Host) (wr : List String → Row) (w : Writer) (r : result) :
    Option Writer :=
  let w1 : Writer := if w.once then w else { once := true, rows := w.rows ++ [wr (csvHeader r)] }
  match csvValues h r with
  | none => none
  | some v => some { w1 with rows := w1.rows ++ [wr v] }

/-- A report loop `for _, r := range results`. -/
def writeAll (h : Host) (wr : List String → Row) : Writer → List result → Option Writer
  | w, [] => some w
  | w, r :: rs =>
    match writeResult h wr w r with
    | none => none
    | some w1 => writeAll h wr w1 rs

/-- The output `switch` of `runNoClear`: the rows written for `results`. -/
def render (h : Host) (fl : Flags) (results : List result) : Option (List Row) :=
  if isCsv h fl.outputFlag fl.formatFlag then
    (writeAll h csvRow { once := false, rows := [] } results).map Writer.rows
  else
    (writeAll h tabRow { once := false, rows := [] } results).map Writer.rows

/-- The end of `runNoClear`, from the classification loop on, given the state
`st` the bus loop left. The deferred `Release` runs on every way out. -/
def finish (h : Host) (fl : Flags) (st : St result) : Run result :=
  match classifyAll fl st.results with
  | none =>
    { exit := Exit.panic, calls := st.calls ++ [EngineCall.Release], stderr := st.stderr,
      results := st.results, rows := [] }
  | some rs =>
    match createOutput h fl.outputFlag with
    | some e =>
      { exit := Exit.error (Err.host e), calls := st.calls ++ [EngineCall.Release],
        stderr := st.stderr, results := rs, rows := [] }
    | none =>
      match render h fl rs with
      | none =>
        { exit := Exit.panic, calls := st.calls ++ [EngineCall.Release], stderr := st.stderr,
          results := rs, rows := [] }
      | some rows =>
        { exit := Exit.ok, calls := st.calls ++ [EngineCall.Release], stderr := st.stderr,
          results := rs, rows := rows }

/-- A return of `runNoClear` with error `e` before the engine client exists. -/
def failEarly (e : Err) : Run result :=
  { exit := Exit.error e, calls := [], stderr := [], results := [], rows := [] }

/-- The function `runNoClear`. -/
def runNoClear (h : Host) (eng : Engine) (fl : Flags) : Run result :=
  if fl.fileFlag = "" then failEarly Err.noInputFile
  else
    match h.Stat fl.fileFlag with
    | .error e => failEarly (Err.host e)
    | .ok isDir =>
      if isDir then failEarly (Err.notAFile fl.fileFlag)
      else if fl.connFlag.length = 0 then failEarly Err.noFaultConnection
      else
        match fltConnsLoop h.ToUpper [] fl.connFlag with
        | .error e => failEarly e
        | .ok fltConns =>
          match compileFlag h fl.regexFlag with
          | .error e => failEarly (Err.host e)
          | .ok re =>
            let st0 : St result :=
              { calls := [EngineCall.NewClient, EngineCall.LoadDataFile fl.fileFlag],
                stderr := [], results := [] }
            match eng.LoadDataFile fl.fileFlag with
            | some e =>
              { exit := Exit.error (Err.host e), calls := st0.calls ++ [EngineCall.Release],
                stderr := [], results := [], rows := [] }
            | none => finish h fl (busLoop eng fl re fltConns st0)

end Noclear

/-! ## `cmd/busfaults` -/

namespace Busfaults

/-- The flag variables of the `busfault` command. -/
structure Flags where
  fileFlag : String
  outputFlag : String
  formatFlag : String
  regexFlag : String
  vminFlag : F64
  vmaxFlag : F64
  areaFlag : Int
  zoneFlag : Int
  r : F64
  x : F64
  connFlag : List String
  seqFlag : Bool

/-- The `result` struct of `busfaults.go`. -/
structure result where
  b : Bus
  fd : String
  seq : Bool
  va : Phasor
  vb : Phasor
  vc : Phasor
  ia : Phasor
  ib : Phasor
  ic : Phasor
  deriving DecidableEq

/-- The `switch strings.ToUpper(conn)` of the connection loop of `runBusFault`:
the canonical connection of one user-supplied code, or the error of the
`default` case, which carries the upper-cased code. -/
def canonicalize (ToUpper : String → String) (conn : String) : Except Err FltConn :=
  let u := ToUpper conn
  if u = "ABC" then .ok FltConn.ABC
  else if u = "BCG" ∨ u = "CBG" then .ok FltConn.BCG
  else if u = "CAG" ∨ u = "ACG" then .ok FltConn.CAG
  else if u = "ABG" ∨ u = "BAG" then .ok FltConn.ABG
  else if u = "AG" then .ok FltConn.AG
  else if u = "BG" then .ok FltConn.BG
  else if u = "CG" then .ok FltConn.CG
  else if u = "BC" ∨ u = "CB" then .ok FltConn.BC
  else if u = "CA" ∨ u = "AC" then .ok FltConn.CA
  else if u = "AB" ∨ u = "BA" then .ok FltConn.AB
  else .error (Err.unknownFaultConnection (ToUpper conn))

/-- The loop `for _, conn := range connFlag` of `runBusFault`, from the
connections `fltConns` collected so far. -/
def fltConnsLoop (ToUpper : String → String) :
    List FltConn → List String → Except Err (List FltConn)
  | fltConns, [] => .ok fltConns
  | fltConns, conn :: rest =>
    match canonicalize ToUpper conn with
    | .error e => .error e
    | .ok c => fltConnsLoop ToUpper (fltConns ++ [c]) rest

/-- The four filters at the head of the bus loop of `runBusFault`, in their
order: `false` when one of them reaches its `continue`. -/
def selected (re : Option (String → Bool)) (vminFlag vmaxFlag : F64)
    (areaFlag zoneFlag : Int) (b : Bus) : Bool :=
  if (match re with
      | some m => !m b.Name
      | none => false) then false
  else if b.KVNominal.lt vminFlag || b.KVNominal.gt vmaxFlag then false
  else if areaFlag != 0 && b.Area != areaFlag then false
  else if zoneFlag != 0 && b.Zone != zoneFlag then false
  else true

/-- The fault configuration built for a bus: `FaultConn(fltConns...)`,
`FaultClearPrev(true)`, `FaultCloseIn`, and `FaultRX` when `r > 0 || x > 0`. -/
def newFaultConfig (fl : Flags) (fltConns : List FltConn) : FaultConfig :=
  { conns := fltConns, clearPrev := true, closeIn := true,
    rx := if fl.r.gt F64.zero || fl.x.gt F64.zero then some (fl.r, fl.x) else none }

/-- The body of the loop `for faults.Next()` for the fault index `i`, after a
fault applied at the bus handle `hnd` of bus `b`. -/
def faultBody (eng : Engine) (fl : Flags) (hnd : Int) (b : Bus)
    (st : St result) (i : Nat) : St result :=
  let st1 := st.call (EngineCall.FaultDescription i)
  let fd := eng.FaultDescription hnd i
  let st2 := st1.call
    (if fl.seqFlag then EngineCall.GetSCVoltageSeq hnd else EngineCall.GetSCVoltagePhase hnd)
  match eng.GetSCVoltage fl.seqFlag hnd i with
  | .error e => st2.log e
  | .ok (va, vb, vc) =>
    let st3 := st2.call
      (if fl.seqFlag then EngineCall.GetSCCurrentSeq else EngineCall.GetSCCurrentPhase)
    match eng.GetSCCurrent fl.seqFlag hnd i with
    | .error e => st3.log e
    | .ok (ia, ib, ic) =>
      st3.push { b := b, fd := fd, seq := fl.seqFlag, va := va, vb := vb, vc := vc,
                 ia := ia, ib := ib, ic := ic }

/-- The body of the loop `for buses.Next()` of `runBusFault`. -/
def busBody (eng : Engine) (fl : Flags) (re : Option (String → Bool))
    (fltConns : List FltConn) (st : St result) (hnd : Int) : St result :=
  let st1 := st.call (EngineCall.GetBus hnd)
  match eng.GetBus hnd with
  | .error e => st1.log e
  | .ok b =>
    if !selected re fl.vminFlag fl.vmaxFlag fl.areaFlag fl.zoneFlag b then st1
    else
      let cfg := newFaultConfig fl fltConns
      let st2 := st1.call (EngineCall.DoFault hnd cfg)
      match eng.DoFault hnd cfg with
      | .error e => st2.log e
      | .ok indices => indices.foldl (faultBody eng fl hnd b) (st2.call EngineCall.NextFault)

/-- The loop `for buses.Next()` of `runBusFault`, after `NextEquipment`. -/
def busLoop (eng : Engine) (fl : Flags) (re : Option (String → Bool))
    (fltConns : List FltConn) (st : St result) : St result :=
  eng.busHandles.foldl (busBody eng fl re fltConns) (st.call EngineCall.NextEquipment)

/-- The method `csvHeader`. -/
def csvHeader (r : result) : List String :=
  let h := ["Fault Description", "Bus Number", "Bus Name", "Bus kV"]
  if r.seq then
    h ++ ["V0_mag (kV)", "V0_ang", "V1_mag (kV)", "V1_ang", "V2_mag (kV)", "V2_ang",
          "I0_mag (A)", "I0_ang", "I1_mag (A)", "I1_ang", "I2_mag (A)", "I2_ang"]
  else
    h ++ ["Va_mag (kV)", "Va_ang", "Vb_mag (kV)", "Vb_ang", "Vc_mag (kV)", "Vc_ang",
          "Ia_mag (A)", "Ia_ang", "Ib_mag (A)", "Ib_ang", "Ic_mag (A)", "Ic_ang"]

/-- The method `csvValues`. -/
def csvValues (h : Host) (r : result) : List String :=
  [r.fd, h.fmtD r.b.Number, r.b.Name, h.fmtF2 r.b.KVNominal,
   h.fmtF2 r.va.Mag, h.fmtF1 r.va.Ang, h.fmtF2 r.vb.Mag, h.fmtF1 r.vb.Ang,
   h.fmtF2 r.vc.Mag, h.fmtF1 r.vc.Ang, h.fmtF2 r.ia.Mag, h.fmtF1 r.ia.Ang,
   h.fmtF2 r.ib.Mag, h.fmtF1 r.ib.Ang, h.fmtF2 r.ic.Mag, h.fmtF1 r.ic.Ang]

/-- The body of a report loop: the header through the `sync.Once`, then the
values of `r`, each handed to the writer by `wr`. -/
def writeResult (h : Host) (wr : List String → Row) (w : Writer) (r : result) : Writer :=
  let w1 : Writer := if w.once then w else { once := true, rows := w.rows ++ [wr (csvHeader r)] }
  { w1 with rows := w1.rows ++ [wr (csvValues h r)] }

/-- A report loop `for _, r := range results`. -/
def writeAll (h : Host) (wr : List String → Row) (w : Writer) (results : List result) : Writer :=
  results.foldl (writeResult h wr) w

/-- The output `switch` of `runBusFault`: the rows written for `results`. -/
def render (h : Host) (fl : Flags) (results : List result) : List Row :=
  if isCsv h fl.outputFlag fl.formatFlag then
    (writeAll h csvRow { once := false, rows := [] } results).rows
  else
    (writeAll h tabRow { once := false, rows := [] } results).rows

/-- The end of `runBusFault`, from the opening of the output on, given the
state `st` the bus loop left. The deferred `Release` runs on every way out. -/
def finish (h : Host) (fl : Flags) (st : St result) : Run result :=
  match createOutput h fl.outputFlag with
  | some e =>
    { exit := Exit.error (Err.host e), calls := st.calls ++ [EngineCall.Release],
      stderr := st.stderr, results := st.results, rows := [] }
  | none =>
    { exit := Exit.ok, calls := st.calls ++ [EngineCall.Release], stderr := st.stderr,
      results := st.results, rows := render h fl st.results }

/-- A return of `runBusFault` with error `e` before the engine client exists. -/
def failEarly (e : Err) : Run result :=
  { exit := Exit.error e, calls := [], stderr := [], results := [], rows := [] }

/-- The function `runBusFault`. -/
def runBusFault (h : Host) (eng : Engine) (fl : Flags) : Run result :=
  if fl.fileFlag = "" then failEarly Err.noInputFile
  else
    match h.Stat fl.fileFlag with
    | .error e => failEarly (Err.host e)
    | .ok isDir =>
      if isDir then failEarly (Err.notAFile fl.fileFlag)
      else if fl.connFlag.length = 0 then failEarly Err.noFaultConnection
      else
        match fltConnsLoop h.ToUpper [] fl.connFlag with
        | .error e => failEarly e
        | .ok fltConns =>
          match compileFlag h fl.regexFlag with
          | .error e => failEarly (Err.host e)
          | .ok re =>
            let st0 : St result :=
              { calls := [EngineCall.NewClient, EngineCall.LoadDataFile fl.fileFlag],
                stderr := [], results := [] }
            match eng.LoadDataFile fl.fileFlag with
            | some e =>
              { exit := Exit.error (Err.host e), calls := st0.calls ++ [EngineCall.Release],
                stderr := [], results := [], rows := [] }
            | none => finish h fl (busLoop eng fl re fltConns st0)

end Busfaults

end Olxcli

/-! ## What one engine run contributes -/

namespace Olxcli

namespace Noclear

/-- The result of the stepped-event run of connection `conn` anchored at the
handle `hnd` (a bus or a branch) for the bus `b`: nothing when the run fails. -/
def runResult (eng : Engine) (fl : Flags) (b : Bus) (conn : FltConn) (hnd : Int) :
    Option result :=
  match eng.DoSteppedEvent hnd (newSteppedEvent fl conn) with
  | .error _ => none
  | .ok steps => some (newResult b conn (newSteppedEvent fl conn) steps)

/-- The buses that load and pass the filters, each with its handle, in the
order of the engine. -/
def selectedBuses (eng : Engine) (re : Option (String → Bool)) (fl : Flags) :
    List (Int × Bus) :=
  eng.busHandles.filterMap (fun hnd =>
    match eng.GetBus hnd with
    | .error _ => none
    | .ok b =>
      if selected re fl.vminFlag fl.vmaxFlag fl.areaFlag fl.zoneFlag b then some (hnd, b)
      else none)

end Noclear

namespace Busfaults

/-- The result of the fault event `i` of a fault applied at the handle `hnd` of
bus `b`: nothing when the voltage or the current cannot be retrieved. -/
def eventResult (eng : Engine) (fl : Flags) (hnd : Int) (b : Bus) (i : Nat) : Option result :=
  match eng.GetSCVoltage fl.seqFlag hnd i, eng.GetSCCurrent fl.seqFlag hnd i with
  | .ok v, .ok c =>
    some { b := b, fd := eng.FaultDescription hnd i, seq := fl.seqFlag,
           va := v.1, vb := v.2.1, vc := v.2.2, ia := c.1, ib := c.2.1, ic := c.2.2 }
  | _, _ => none

/-- The buses that load and pass the filters, each with its handle, in the
order of the engine. -/
def selectedBuses (eng : Engine) (re : Option (String → Bool)) (fl : Flags) :
    List (Int × Bus) :=
  eng.busHandles.filterMap (fun hnd =>
    match eng.GetBus hnd with
    | .error _ => none
    | .ok b =>
      if selected re fl.vminFlag fl.vmaxFlag fl.areaFlag fl.zoneFlag b then some (hnd, b)
      else none)

end Busfaults

/-! ## Definitions following the specification -/

namespace Spec

/-- The recognised connection codes with their canonical connection, as the
specification of the canonicalizer lists them. -/
def aliasTable : List (String × FltConn) :=
  [("ABC", FltConn.ABC),
   ("AG", FltConn.AG), ("BG", FltConn.BG), ("CG", FltConn.CG),
   ("AB", FltConn.AB), ("BA", FltConn.AB),
   ("BC", FltConn.BC), ("CB", FltConn.BC),
   ("CA", FltConn.CA), ("AC", FltConn.CA),
   ("ABG", FltConn.ABG), ("BAG", FltConn.ABG),
   ("BCG", FltConn.BCG), ("CBG", FltConn.BCG),
   ("CAG", FltConn.CAG), ("ACG", FltConn.CAG)]

/-- The canonicalizer of the specification: look the upper-cased code up in
`aliasTable`, and fail with the upper-cased code when it is not there. -/
def canonicalize (ToUpper : String → String) (code : String) : Except Err FltConn :=
  match aliasTable.lookup (ToUpper code) with
  | some c => .ok c
  | none => .error (Err.unknownFaultConnection (ToUpper code))

/-- The selector predicate of the specification: the name matches the pattern
(or no pattern is given), `vMin <= kvNominal <= vMax`, `area == 0` or the bus
is in the area, `zone == 0` or the bus is in the zone. -/
def passes (namePattern : Option (String → Bool)) (vMin vMax : F64) (area zone : Int)
    (b : Bus) : Bool :=
  (match namePattern with
   | none => true
   | some m => m b.Name) &&
  (vMin.le b.KVNominal && b.KVNominal.le vMax) &&
  (area == 0 || b.Area == area) &&
  (zone == 0 || b.Zone == zone)

/-- The results the specification of the stepped-event orchestrator gives with
the branches option enabled: for each selected bus and connection, the
bus-anchored run when it succeeds, and every branch-anchored run that
succeeds, whatever the bus-anchored run did. -/
def steppedEventResults (eng : Engine) (re : Option (String → Bool)) (fl : Noclear.Flags)
    (fltConns : List FltConn) : List Noclear.result :=
  (Noclear.selectedBuses eng re fl).flatMap (fun hb =>
    fltConns.flatMap (fun conn =>
      (Noclear.runResult eng fl hb.2 conn hb.1).toList ++
        (eng.branchHandles hb.1).filterMap (Noclear.runResult eng fl hb.2 conn)))

end Spec

end Olxcli

/-! ## Concrete inputs used by the examples -/

namespace Olxcli

namespace Examples

/-- A 115 kV bus in area 3, zone 1. -/
def bus1 : Bus := { Number := 1, Name := "ALPHA", KVNominal := F64.fin 115, Area := 3, Zone := 1 }

/-- A 230 kV bus in area 5, zone 2. -/
def bus2 : Bus := { Number := 2, Name := "BETA", KVNominal := F64.fin 230, Area := 5, Zone := 2 }

/-- A stepped-event step with time `t` and current `i`. -/
def step (t i : F64) : SteppedEvent := { Time := t, Current := i, FaultDescription := "fault" }

/-- The terminal "final clearing" marker closing a step sequence. -/
def terminal : SteppedEvent := { Time := F64.fin 9, Current := F64.fin 0, FaultDescription := "end" }

/-- The close-in, all-events configuration for a connection, without impedance. -/
def cfgOf (conn : FltConn) : SteppedEventConfig :=
  { conn := conn, closeIn := true, all := true, rx := none }

/-- Steps `(0, 500), (0.1, 500), (0.2, 0.8), terminal`. -/
def stepsCleared : List SteppedEvent :=
  [step (F64.fin 0) (F64.fin 500), step (F64.fin (mkRat 1 10)) (F64.fin 500),
   step (F64.fin (mkRat 1 5)) (F64.fin (mkRat 4 5)), terminal]

/-- Steps `(0, 500), (5.0, 500), terminal`. -/
def stepsNotCleared : List SteppedEvent :=
  [step (F64.fin 0) (F64.fin 500), step (F64.fin 5) (F64.fin 500), terminal]

/-- Steps `(0, 500), (4.0, 0.5), terminal`. -/
def stepsSlow : List SteppedEvent :=
  [step (F64.fin 0) (F64.fin 500), step (F64.fin 4) (F64.fin (mkRat 1 2)), terminal]

/-- Steps `(0, 500), (0.5, 0.5), terminal`: cleared after half a second. -/
def stepsOkay : List SteppedEvent :=
  [step (F64.fin 0) (F64.fin 500), step (F64.fin (mkRat 1 2)) (F64.fin (mkRat 1 2)), terminal]

/-- A fresh result of bus `bus1` under connection `AG` holding `steps`. -/
def resultOf (steps : List SteppedEvent) : Noclear.result :=
  Noclear.newResult bus1 FltConn.AG (cfgOf FltConn.AG) steps

/-- A host with ASCII case mapping, on which the input file exists and is a
regular file, the output file can be created, and no pattern compiles. Its
formatting verbs are those of `fmt`. -/
def hostOf (fmt : Host) : Host :=
  { fmt with
    ToUpper := asciiToUpper, ToLower := asciiToLower,
    Stat := fun _ => .ok false,
    Compile := fun _ => .error "no pattern expected",
    Create := fun _ => none }

/-- A host as `hostOf`, whose formatting verbs print the text unquoted and
print numbers as the empty string. -/
def host : Host :=
  hostOf { ToUpper := id, ToLower := id, Stat := fun _ => .ok false,
           Compile := fun _ => .error "", Create := fun _ => none,
           fmtQ := id, fmtD := fun _ => "", fmtF2 := fun _ => "", fmtF1 := fun _ => "" }

/-- The flags of `noclear -f case.olr -c <conns>`, the others at their defaults. -/
def ncFlags (conns : List String) (branches verbose : Bool) : Noclear.Flags :=
  { fileFlag := "case.olr", outputFlag := "", formatFlag := "tab", regexFlag := "",
    vminFlag := F64.fin 0, vmaxFlag := F64.fin 999, areaFlag := 0, zoneFlag := 0,
    r := F64.fin 0, x := F64.fin 0, connFlag := conns, branchesFlag := branches,
    verboseFlag := verbose, clearedThresholdFlag := F64.fin 1,
    slowClearThresholdFlag := F64.fin 3 }

/-- The flags of `busfault -f case.olr -c <conns>`, the others at their defaults. -/
def bfFlags (conns : List String) (seq : Bool) : Busfaults.Flags :=
  { fileFlag := "case.olr", outputFlag := "", formatFlag := "tab", regexFlag := "",
    vminFlag := F64.fin 0, vmaxFlag := F64.fin 999, areaFlag := 0, zoneFlag := 0,
    r := F64.fin 0, x := F64.fin 0, connFlag := conns, seqFlag := seq }

/-- A phasor of magnitude `m` and angle 0. -/
def phasor (m : ℚ) : Phasor := { Mag := F64.fin m, Ang := F64.fin 0 }

/-- An engine holding the single bus `bus1` under handle 1, with one branch
under handle 2. A stepped event anchored at the bus yields `busSteps` (an
error when `none`), one anchored at the branch yields `branchSteps`. A fault
at the bus yields the events `0, 1, 2`; the voltage of event 1 cannot be
retrieved. -/
def engine (busSteps branchSteps : Option (List SteppedEvent)) : Engine :=
  { LoadDataFile := fun _ => none,
    busHandles := [1],
    GetBus := fun hnd => if hnd = 1 then .ok bus1 else .error "no such bus",
    DoSteppedEvent := fun hnd _ =>
      match (if hnd = 1 then busSteps else branchSteps) with
      | some steps => .ok steps
      | none => .error "stepped event failed",
    branchHandles := fun hnd => if hnd = 1 then [2] else [],
    DoFault := fun _ _ => .ok [0, 1, 2],
    FaultDescription := fun _ i => if i = 0 then "first" else if i = 1 then "second" else "third",
    GetSCVoltage := fun _ _ i =>
      if i = 1 then .error "no voltage" else .ok (phasor 1, phasor 2, phasor 3),
    GetSCCurrent := fun _ _ _ => .ok (phasor 4, phasor 5, phasor 6) }

end Examples

end Olxcli

/-! ## Theorems -/

namespace Olxcli

namespace Noclear

theorem processLoop_frame (thr : F64) (l : List SteppedEvent) :
    ∀ (i : Nat) (r : result),
      (processLoop thr i l r).steps = r.steps ∧ (processLoop thr i l r).b = r.b ∧
      (processLoop thr i l r).conn = r.conn ∧ (processLoop thr i l r).cfg = r.cfg ∧
      (processLoop thr i l r).note = r.note := by
  induction l with
  | nil => intro i r; simp [processLoop]
  | cons s rest ih =>
    intro i r
    simp only [processLoop]
    split
    · split <;> simp
    · have h := ih (i + 1)
      split <;> simp [h]

theorem processLoop_currentInit (thr : F64) (l : List SteppedEvent) :
    ∀ (i : Nat) (r : result),
      (processLoop thr i l r).currentInit =
        if i = 0 then (l.head?.map SteppedEvent.Current).getD r.currentInit
        else r.currentInit := by
  induction l with
  | nil => intro i r; simp [processLoop]
  | cons s rest ih =>
    intro i r
    by_cases hi : i = 0 <;> by_cases hs : s.Current.le thr = true <;>
      simp [processLoop, hi, hs, ih]

theorem processLoop_none (thr : F64) (init : List SteppedEvent) :
    ∀ (i : Nat) (r : result) (sl : SteppedEvent),
      (∀ s ∈ init ++ [sl], s.Current.le thr = false) →
      (processLoop thr i (init ++ [sl]) r).cleared = r.cleared ∧
      (processLoop thr i (init ++ [sl]) r).currentFinal = sl.Current ∧
      (processLoop thr i (init ++ [sl]) r).maxTime = sl.Time := by
  induction init with
  | nil =>
    intro i r sl hall
    have hs : sl.Current.le thr = false := hall sl (by simp)
    by_cases hi : i = 0 <;> simp [processLoop, hs, hi]
  | cons s rest ih =>
    intro i r sl hall
    have hs : s.Current.le thr = false := hall s (by simp)
    have hrest : ∀ t ∈ rest ++ [sl], t.Current.le thr = false :=
      fun t ht => hall t (by simp at ht ⊢; tauto)
    simp only [List.cons_append, processLoop, hs, Bool.false_eq_true, if_false]
    obtain ⟨h1, h2, h3⟩ := ih (i + 1)
      { (if i = 0 then { r with currentInit := s.Current } else r) with
        currentFinal := s.Current, maxTime := s.Time } sl hrest
    refine ⟨h1.trans ?_, h2, h3⟩
    by_cases hi : i = 0 <;> simp [hi]

theorem processLoop_hit (thr : F64) (pre : List SteppedEvent) :
    ∀ (i : Nat) (r : result) (s : SteppedEvent) (post : List SteppedEvent),
      (∀ p ∈ pre, p.Current.le thr = false) → s.Current.le thr = true →
      (processLoop thr i (pre ++ s :: post) r).cleared = true ∧
      (processLoop thr i (pre ++ s :: post) r).currentFinal = s.Current ∧
      (processLoop thr i (pre ++ s :: post) r).maxTime = s.Time := by
  induction pre with
  | nil => intro i r s post _ hs; simp [processLoop, hs]
  | cons p ps ih =>
    intro i r s post hall hs
    have hp : p.Current.le thr = false := hall p (List.mem_cons_self _ _)
    have hps : ∀ t ∈ ps, t.Current.le thr = false :=
      fun t ht => hall t (List.mem_cons_of_mem _ ht)
    simp only [List.cons_append, processLoop, hp, Bool.false_eq_true, if_false]
    exact ih (i + 1) _ s post hps hs

/-- A list with an element satisfying `p` splits at the first such element. -/
theorem exists_first {α : Type} (p : α → Bool) (l : List α) (h : ∃ a ∈ l, p a = true) :
    ∃ pre a post, l = pre ++ a :: post ∧ (∀ b ∈ pre, p b = false) ∧ p a = true := by
  induction l with
  | nil => simp at h
  | cons x xs ih =>
    by_cases hx : p x = true
    · exact ⟨[], x, xs, rfl, by simp, hx⟩
    · have hx2 : p x = false := by simpa using hx
      have h2 : ∃ a ∈ xs, p a = true := by
        obtain ⟨a, ha, hpa⟩ := h
        rcases List.mem_cons.mp ha with rfl | hmem
        · exact absurd hpa hx
        · exact ⟨a, hmem, hpa⟩
      obtain ⟨pre, a, post, hl, hpre, ha⟩ := ih h2
      refine ⟨x :: pre, a, post, by simp [hl], ?_, ha⟩
      intro b hb
      rcases List.mem_cons.mp hb with rfl | hmem
      · exact hx2
      · exact hpre b hmem

/-- C1: for a result not yet cleared whose step sequence has at least two
elements, `process` returns, scanning every step but the last one. `cleared`
holds exactly when a scanned step has a current at or below the threshold;
`currentInit` is the current of step 0; when cleared, `currentFinal` and
`maxTime` are those of the first scanned step at or below the threshold; when
not cleared, they are those of the last scanned step (last seen, not maxima).
No other field changes. -/
theorem C1_process_scan (thr : F64) (r : result) (hlen : 2 ≤ r.steps.length)
    (hc : r.cleared = false) :
    ∃ r1, process thr r = some r1 ∧
      (r1.cleared = true ↔ ∃ s ∈ r.steps.dropLast, s.Current.le thr = true) ∧
      (∃ s0, r.steps.head? = some s0 ∧ r1.currentInit = s0.Current) ∧
      (r1.cleared = true → ∃ pre s post, r.steps.dropLast = pre ++ s :: post ∧
          (∀ p ∈ pre, p.Current.le thr = false) ∧ s.Current.le thr = true ∧
          r1.currentFinal = s.Current ∧ r1.maxTime = s.Time) ∧
      (r1.cleared = false → ∃ sl, r.steps.dropLast.getLast? = some sl ∧
          r1.currentFinal = sl.Current ∧ r1.maxTime = sl.Time) ∧
      r1.steps = r.steps ∧ r1.b = r.b ∧ r1.conn = r.conn ∧ r1.cfg = r.cfg ∧
      r1.note = r.note := by
  have hne : r.steps.length ≠ 0 := by omega
  refine ⟨processLoop thr 0 r.steps.dropLast r, ?_, ?_⟩
  · simp [process, hne, List.dropLast_eq_take]
  obtain ⟨f1, f2, f3, f4, f5⟩ := processLoop_frame thr r.steps.dropLast 0 r
  have hinit := processLoop_currentInit thr r.steps.dropLast 0 r
  have hhead : ∃ s0, r.steps.head? = some s0 ∧ r.steps.dropLast.head? = some s0 := by
    cases hst : r.steps with
    | nil => simp [hst] at hlen
    | cons a t =>
      cases t with
      | nil => simp [hst] at hlen
      | cons b u => exact ⟨a, by simp, by simp [List.dropLast]⟩
  have hdne : r.steps.dropLast ≠ [] := by
    obtain ⟨s0, _, h0⟩ := hhead
    intro h
    simp [h] at h0
  by_cases hex : ∃ s ∈ r.steps.dropLast, s.Current.le thr = true
  · obtain ⟨pre, s, post, hl, hpre, hs⟩ :=
      exists_first (fun s : SteppedEvent => s.Current.le thr) r.steps.dropLast hex
    have hhit := processLoop_hit thr pre 0 r s post hpre hs
    rw [← hl] at hhit
    obtain ⟨c1, c2, c3⟩ := hhit
    refine ⟨⟨fun _ => hex, fun _ => c1⟩, ?_, fun _ => ⟨pre, s, post, hl, hpre, hs, c2, c3⟩,
      fun h => ?_, f1, f2, f3, f4, f5⟩
    · obtain ⟨s0, h0, h1⟩ := hhead
      exact ⟨s0, h0, by simp [hinit, h1]⟩
    · rw [c1] at h
      exact absurd h (by simp)
  · have hall : ∀ s ∈ r.steps.dropLast, s.Current.le thr = false := by
      intro s hs
      by_contra hcon
      exact hex ⟨s, hs, by simpa using hcon⟩
    have hsplit : r.steps.dropLast =
        r.steps.dropLast.dropLast ++ [r.steps.dropLast.getLast hdne] :=
      (List.dropLast_append_getLast hdne).symm
    have hnone := processLoop_none thr r.steps.dropLast.dropLast 0 r
      (r.steps.dropLast.getLast hdne) (by rw [← hsplit]; exact hall)
    rw [← hsplit] at hnone
    obtain ⟨c1, c2, c3⟩ := hnone
    have hcl : (processLoop thr 0 r.steps.dropLast r).cleared = false := by rw [c1, hc]
    refine ⟨⟨fun h => ?_, fun h => absurd h hex⟩, ?_, fun h => ?_,
      fun _ => ⟨r.steps.dropLast.getLast hdne, List.getLast?_eq_getLast _ hdne, c2, c3⟩,
      f1, f2, f3, f4, f5⟩
    · rw [hcl] at h
      exact absurd h (by simp)
    · obtain ⟨s0, h0, h1⟩ := hhead
      exact ⟨s0, h0, by simp [hinit, h1]⟩
    · rw [hcl] at h
      exact absurd h (by simp)

/-- The spec example of C1: steps `(0, 500), (0.1, 500), (0.2, 0.8), terminal`
with threshold 1.0 give `cleared`, initial current 500, final current 0.8 and
time 0.2. -/
theorem process_stepsCleared :
    process (F64.fin 1) (Examples.resultOf Examples.stepsCleared) =
      some { Examples.resultOf Examples.stepsCleared with
        cleared := true, currentInit := F64.fin 500,
        currentFinal := F64.fin (mkRat 4 5), maxTime := F64.fin (mkRat 1 5) } := by
  decide

/-- Witness of C1 at the spec example: its hypotheses hold there and the
conclusion is the one of `C1_process_scan`. -/
theorem C1_process_scan_witness :
    (2 ≤ (Examples.resultOf Examples.stepsCleared).steps.length ∧
      (Examples.resultOf Examples.stepsCleared).cleared = false) ∧
    ∃ r1, process (F64.fin 1) (Examples.resultOf Examples.stepsCleared) = some r1 ∧
      (r1.cleared = true ↔
        ∃ s ∈ (Examples.resultOf Examples.stepsCleared).steps.dropLast,
          s.Current.le (F64.fin 1) = true) ∧
      (∃ s0, (Examples.resultOf Examples.stepsCleared).steps.head? = some s0 ∧
        r1.currentInit = s0.Current) ∧
      (r1.cleared = true → ∃ pre s post,
          (Examples.resultOf Examples.stepsCleared).steps.dropLast = pre ++ s :: post ∧
          (∀ p ∈ pre, p.Current.le (F64.fin 1) = false) ∧ s.Current.le (F64.fin 1) = true ∧
          r1.currentFinal = s.Current ∧ r1.maxTime = s.Time) ∧
      (r1.cleared = false →
        ∃ sl, (Examples.resultOf Examples.stepsCleared).steps.dropLast.getLast? = some sl ∧
          r1.currentFinal = sl.Current ∧ r1.maxTime = sl.Time) ∧
      r1.steps = (Examples.resultOf Examples.stepsCleared).steps ∧
      r1.b = (Examples.resultOf Examples.stepsCleared).b ∧
      r1.conn = (Examples.resultOf Examples.stepsCleared).conn ∧
      r1.cfg = (Examples.resultOf Examples.stepsCleared).cfg ∧
      r1.note = (Examples.resultOf Examples.stepsCleared).note :=
  ⟨⟨by decide, rfl⟩,
    C1_process_scan (F64.fin 1) (Examples.resultOf Examples.stepsCleared) (by decide) rfl⟩

/-- C3: `process` panics on the empty step sequence (the slice
`r.steps[:len(r.steps)-1]` is out of range), whereas on the sequence holding
only the terminal marker it returns the result unchanged, which is then
classified "not cleared" with the numeric fields at zero. A run whose engine
yields no step for a stepped event ends in that panic and writes no row. -/
theorem C3_empty_steps_panic (thr slow : F64) (verbose : Bool) (b : Bus) (conn : FltConn)
    (cfg : SteppedEventConfig) :
    process thr (newResult b conn cfg []) = none ∧
    (∀ t : SteppedEvent,
      (process thr (newResult b conn cfg [t])).map (classify slow verbose) =
        some { b := b, cfg := cfg, conn := conn, cleared := false, currentInit := F64.zero,
               currentFinal := F64.zero, maxTime := F64.zero, steps := [t],
               note := "not cleared" }) ∧
    (runNoClear Examples.host (Examples.engine (some []) none)
        (Examples.ncFlags ["AG"] false false)).exit = Exit.panic ∧
    (runNoClear Examples.host (Examples.engine (some []) none)
        (Examples.ncFlags ["AG"] false false)).rows = [] := by
  refine ⟨?_, ?_, by decide, by decide⟩
  · simp [process, newResult]
  · intro t
    simp [process, newResult, processLoop, classify]

/-- C4: the note is assigned by priority. A result that is not cleared gets
"not cleared"; otherwise one with `maxTime >= slowThreshold` gets "slow
clearing"; otherwise with `verbose` it gets "okay"; otherwise the note is left
as it was. No other field changes. The two spec examples classify as "not
cleared" and, with thresholds 1.0 and 3.0, as "slow clearing". -/
theorem C4_classification_priority (slow : F64) (verbose : Bool) (r : result) :
    ((classify slow verbose r).note =
      if r.cleared = false then "not cleared"
      else if r.maxTime.ge slow = true then "slow clearing"
      else if verbose = true then "okay"
      else r.note) ∧
    { classify slow verbose r with note := r.note } = r ∧
    ((process (F64.fin 1) (Examples.resultOf Examples.stepsNotCleared)).map
        (fun r1 => (r1.cleared, (classify (F64.fin 3) verbose r1).note))
      = some (false, "not cleared")) ∧
    ((process (F64.fin 1) (Examples.resultOf Examples.stepsSlow)).map
        (fun r1 => (r1.cleared, r1.maxTime, (classify (F64.fin 3) verbose r1).note))
      = some (true, F64.fin 4, "slow clearing")) := by
  refine ⟨?_, ?_, ?_, ?_⟩
  · cases hcl : r.cleared <;> cases hge : r.maxTime.ge slow <;> cases verbose <;>
      simp [classify, hcl, hge]
  · rcases r with ⟨b, cfg, conn, cleared, ci, cf, mt, steps, note⟩
    cases cleared <;> cases hge : F64.ge mt slow <;> cases verbose <;>
      simp [classify, hge]
  · cases verbose <;> decide
  · cases verbose <;> decide

end Noclear

end Olxcli

namespace Olxcli

namespace Noclear

/-- C2: a run of `noclear` without `--verbose` on a bus whose fault clears after
0.5 s (thresholds 1.0 A and 3.0 s). The result is neither "not cleared" nor
"slow clearing", its note stays empty, and yet the report holds its row of
values after the header: the `continue` of the classification loop removes
nothing from `results`. With `--verbose` the same row is written with the
note "okay". -/
theorem C2_okay_result_is_reported (fmt : Host) :
    (runNoClear (Examples.hostOf fmt) (Examples.engine (some Examples.stepsOkay) none)
        (Examples.ncFlags ["AG"] false false)).exit = Exit.ok ∧
    (runNoClear (Examples.hostOf fmt) (Examples.engine (some Examples.stepsOkay) none)
        (Examples.ncFlags ["AG"] false false)).results =
      [{ Examples.resultOf Examples.stepsOkay with
          cleared := true, currentInit := F64.fin 500, currentFinal := F64.fin (mkRat 1 2),
          maxTime := F64.fin (mkRat 1 2), note := "" }] ∧
    (runNoClear (Examples.hostOf fmt) (Examples.engine (some Examples.stepsOkay) none)
        (Examples.ncFlags ["AG"] false false)).rows =
      [tabRow ["Fault Description", "Bus Number", "Bus Name", "Bus kV", "Max OpTime (s)",
               "Fault Cleared", "Initial Current (A)", "Final Current (A)", "Note"],
       tabRow [fmt.fmtQ "fault", fmt.fmtD 1, "ALPHA", fmt.fmtF2 (F64.fin 115),
               fmt.fmtF2 (F64.fin (mkRat 1 2)), "true", fmt.fmtF2 (F64.fin 500),
               fmt.fmtF2 (F64.fin (mkRat 1 2)), ""]] ∧
    (runNoClear (Examples.hostOf fmt) (Examples.engine (some Examples.stepsOkay) none)
        (Examples.ncFlags ["AG"] false true)).rows =
      [tabRow ["Fault Description", "Bus Number", "Bus Name", "Bus kV", "Max OpTime (s)",
               "Fault Cleared", "Initial Current (A)", "Final Current (A)", "Note"],
       tabRow [fmt.fmtQ "fault", fmt.fmtD 1, "ALPHA", fmt.fmtF2 (F64.fin 115),
               fmt.fmtF2 (F64.fin (mkRat 1 2)), "true", fmt.fmtF2 (F64.fin 500),
               fmt.fmtF2 (F64.fin (mkRat 1 2)), "okay"]] := by
  refine ⟨by rfl, by rfl, by rfl, by rfl⟩

end Noclear

end Olxcli

namespace Olxcli

theorem noclear_canonicalize_eq_spec (up : String → String) (s : String) :
    Noclear.canonicalize up s = Spec.canonicalize up s := by
  unfold Noclear.canonicalize Spec.canonicalize
  generalize up s = u
  simp only
  split_ifs with h1 h2 h3 h4 h5 h6 h7 h8 h9 h10
  · subst h1; rfl
  · rcases h2 with rfl | rfl <;> rfl
  · rcases h3 with rfl | rfl <;> rfl
  · rcases h4 with rfl | rfl <;> rfl
  · subst h5; rfl
  · subst h6; rfl
  · subst h7; rfl
  · rcases h8 with rfl | rfl <;> rfl
  · rcases h9 with rfl | rfl <;> rfl
  · rcases h10 with rfl | rfl <;> rfl
  · have hnone : Spec.aliasTable.lookup u = none := by
      simp only [not_or] at h2 h3 h4 h8 h9 h10
      have e : ∀ k : String, ¬ u = k → (u == k) = false := fun k hk => by simpa using hk
      simp only [Spec.aliasTable, List.lookup, e _ h1, e _ h2.1, e _ h2.2, e _ h3.1, e _ h3.2,
        e _ h4.1, e _ h4.2, e _ h5, e _ h6, e _ h7, e _ h8.1, e _ h8.2, e _ h9.1, e _ h9.2,
        e _ h10.1, e _ h10.2]
    rw [hnone]

theorem mem_aliasTable_iff (u : String) (c : FltConn) :
    (u, c) ∈ Spec.aliasTable ↔ Spec.aliasTable.lookup u = some c := by
  by_cases hu : ∃ k ∈ Spec.aliasTable, k.1 = u
  · obtain ⟨k, hk, rfl⟩ := hu
    simp only [Spec.aliasTable, List.mem_cons, List.mem_singleton, List.not_mem_nil,
      or_false] at hk
    rcases hk with rfl | rfl | rfl | rfl | rfl | rfl | rfl | rfl | rfl | rfl | rfl | rfl |
      rfl | rfl | rfl | rfl <;> cases c <;> decide
  · have h1 : (u, c) ∉ Spec.aliasTable := fun h => hu ⟨(u, c), h, rfl⟩
    have e : ∀ k : String, ¬ k = u → (u == k) = false :=
      fun k hk => by simpa using fun h : u = k => hk h.symm
    have h2 : Spec.aliasTable.lookup u = none := by
      simp only [Spec.aliasTable, List.mem_cons, List.mem_singleton, List.not_mem_nil,
        or_false, not_exists, not_and, forall_eq_or_imp, forall_eq] at hu
      obtain ⟨a1, a2, a3, a4, a5, a6, a7, a8, a9, a10, a11, a12, a13, a14, a15, a16⟩ := hu
      simp only [Spec.aliasTable, List.lookup, e _ a1, e _ a2, e _ a3, e _ a4, e _ a5, e _ a6,
        e _ a7, e _ a8, e _ a9, e _ a10, e _ a11, e _ a12, e _ a13, e _ a14, e _ a15, e _ a16]
    simp [h1, h2]

theorem canonicalize_error_eq (up : String → String) (s : String) (e : Err)
    (h : Noclear.canonicalize up s = .error e) : e = Err.unknownFaultConnection (up s) := by
  rw [noclear_canonicalize_eq_spec] at h
  unfold Spec.canonicalize at h
  cases hl : Spec.aliasTable.lookup (up s) <;> simp [hl] at h
  exact h.symm

/-- C5: the connection switch is the same in both commands. Its result depends
only on the upper-cased code; it is the canonical connection the table
`Spec.aliasTable` gives for the upper-cased code (ABC; AG, BG, CG; AB/BA, BC/CB,
CA/AC; ABG/BAG, BCG/CBG, CAG/ACG) and, for a code that is not in the table,
the error carrying the upper-cased code. -/
theorem C5_canonicalize (up : String → String) (s : String) :
    Busfaults.canonicalize up s = Noclear.canonicalize up s ∧
    (∀ t, up t = up s → Noclear.canonicalize up t = Noclear.canonicalize up s) ∧
    (∀ c, Noclear.canonicalize up s = .ok c ↔ (up s, c) ∈ Spec.aliasTable) ∧
    ((∀ c, (up s, c) ∉ Spec.aliasTable) ↔
      Noclear.canonicalize up s = .error (Err.unknownFaultConnection (up s))) ∧
    (∀ e, Noclear.canonicalize up s = .error e → e = Err.unknownFaultConnection (up s)) ∧
    Noclear.canonicalize asciiToUpper "acg" = .ok FltConn.CAG ∧
    Noclear.canonicalize asciiToUpper "Ba" = .ok FltConn.AB ∧
    Noclear.canonicalize asciiToUpper "abc" = .ok FltConn.ABC ∧
    Noclear.canonicalize asciiToUpper "gab" = .error (Err.unknownFaultConnection "GAB") := by
  refine ⟨rfl, ?_, ?_, ?_, ?_, by rfl, by rfl, by rfl, by rfl⟩
  · intro t ht
    rw [noclear_canonicalize_eq_spec, noclear_canonicalize_eq_spec]
    simp [Spec.canonicalize, ht]
  · intro c
    rw [noclear_canonicalize_eq_spec, mem_aliasTable_iff]
    unfold Spec.canonicalize
    cases Spec.aliasTable.lookup (up s) <;> simp
  · rw [noclear_canonicalize_eq_spec]
    simp only [mem_aliasTable_iff]
    unfold Spec.canonicalize
    cases Spec.aliasTable.lookup (up s) <;> simp
  · intro e h
    exact canonicalize_error_eq up s e h

end Olxcli

namespace Olxcli

theorem F64.lt_eq_not_le (a b : F64) (ha : a.isNaN = false) (hb : b.isNaN = false) :
    a.lt b = !b.le a := by
  cases a <;> cases b <;> simp_all [F64.lt, F64.le, F64.isNaN]
  rename_i p q
  by_cases h : p < q
  · simp [h, not_le.mpr h]
  · simp [h, not_lt.mp h]

theorem noclear_selected_eq (re : Option (String → Bool)) (vmin vmax : F64)
    (area zone : Int) (b : Bus) :
    Noclear.selected re vmin vmax area zone b =
      ((match re with
        | none => true
        | some m => m b.Name) &&
       (!b.KVNominal.lt vmin && !b.KVNominal.gt vmax) &&
       (area == 0 || b.Area == area) && (zone == 0 || b.Zone == zone)) := by
  unfold Noclear.selected
  cases re with
  | none =>
    cases b.KVNominal.lt vmin <;> cases b.KVNominal.gt vmax <;>
      by_cases ha : area = 0 <;> by_cases hba : b.Area = area <;>
      by_cases hz : zone = 0 <;> by_cases hbz : b.Zone = zone <;> simp [ha, hba, hz, hbz]
  | some m =>
    cases m b.Name <;> cases b.KVNominal.lt vmin <;> cases b.KVNominal.gt vmax <;>
      by_cases ha : area = 0 <;> by_cases hba : b.Area = area <;>
      by_cases hz : zone = 0 <;> by_cases hbz : b.Zone = zone <;> simp [ha, hba, hz, hbz]

theorem noclear_selected_eq_passes (re : Option (String → Bool)) (vmin vmax : F64)
    (area zone : Int) (b : Bus) (hmin : vmin.isNaN = false) (hmax : vmax.isNaN = false)
    (hkv : b.KVNominal.isNaN = false) :
    Noclear.selected re vmin vmax area zone b = Spec.passes re vmin vmax area zone b := by
  rw [noclear_selected_eq, F64.gt, F64.lt_eq_not_le _ _ hkv hmin,
    F64.lt_eq_not_le _ _ hmax hkv]
  unfold Spec.passes
  simp

/-- C6 (as amended): when neither bound nor any bus voltage is NaN, the buses
both commands select are exactly, in their original order, those whose name
matches the pattern (or no pattern is given), with
`vMin <= kvNominal <= vMax`, in the requested area (or `area = 0`) and in the
requested zone (or `zone = 0`). A bus of area 3 passing the other filters is
excluded for `area = 5` and included for `area = 0` and `area = 3`. -/
theorem C6_selector (re : Option (String → Bool)) (vmin vmax : F64) (area zone : Int)
    (buses : List Bus) (hmin : vmin.isNaN = false) (hmax : vmax.isNaN = false)
    (hkv : ∀ b ∈ buses, b.KVNominal.isNaN = false) :
    buses.filter (Noclear.selected re vmin vmax area zone) =
      buses.filter (Spec.passes re vmin vmax area zone) ∧
    buses.filter (Busfaults.selected re vmin vmax area zone) =
      buses.filter (Spec.passes re vmin vmax area zone) ∧
    [Examples.bus1].filter (Noclear.selected none (F64.fin 0) (F64.fin 999) 5 0) = [] ∧
    [Examples.bus1].filter (Noclear.selected none (F64.fin 0) (F64.fin 999) 0 0) =
      [Examples.bus1] ∧
    [Examples.bus1].filter (Noclear.selected none (F64.fin 0) (F64.fin 999) 3 0) =
      [Examples.bus1] := by
  have h1 : buses.filter (Noclear.selected re vmin vmax area zone) =
      buses.filter (Spec.passes re vmin vmax area zone) := by
    apply List.filter_congr
    intro b hb
    exact noclear_selected_eq_passes re vmin vmax area zone b hmin hmax (hkv b hb)
  exact ⟨h1, h1, by decide, by decide, by decide⟩

/-- Witness of C6: two buses filtered for area 5 between 0 and 999 kV. -/
theorem C6_selector_witness :
    ((F64.fin 0).isNaN = false ∧ (F64.fin 999).isNaN = false ∧
      ∀ b ∈ [Examples.bus1, Examples.bus2], b.KVNominal.isNaN = false) ∧
    ([Examples.bus1, Examples.bus2].filter
        (Noclear.selected none (F64.fin 0) (F64.fin 999) 5 0) =
      [Examples.bus1, Examples.bus2].filter
        (Spec.passes none (F64.fin 0) (F64.fin 999) 5 0) ∧
    [Examples.bus1, Examples.bus2].filter
        (Busfaults.selected none (F64.fin 0) (F64.fin 999) 5 0) =
      [Examples.bus1, Examples.bus2].filter
        (Spec.passes none (F64.fin 0) (F64.fin 999) 5 0) ∧
    [Examples.bus1].filter (Noclear.selected none (F64.fin 0) (F64.fin 999) 5 0) = [] ∧
    [Examples.bus1].filter (Noclear.selected none (F64.fin 0) (F64.fin 999) 0 0) =
      [Examples.bus1] ∧
    [Examples.bus1].filter (Noclear.selected none (F64.fin 0) (F64.fin 999) 3 0) =
      [Examples.bus1]) :=
  ⟨⟨rfl, rfl, by decide⟩,
    C6_selector none (F64.fin 0) (F64.fin 999) 5 0 [Examples.bus1, Examples.bus2] rfl rfl
      (by decide)⟩

/-- C6, counterexample: with `vMin = NaN` the 115 kV bus passes the voltage
filter of both commands (`kv < NaN` and `kv > 999` are both false) although
`vMin <= kvNominal` is false, so the selection differs from the stated one. -/
theorem C6_counterexample_nan_bound :
    [Examples.bus1].filter (Noclear.selected none F64.nan (F64.fin 999) 0 0) =
      [Examples.bus1] ∧
    [Examples.bus1].filter (Busfaults.selected none F64.nan (F64.fin 999) 0 0) =
      [Examples.bus1] ∧
    F64.le F64.nan Examples.bus1.KVNominal = false ∧
    [Examples.bus1].filter (Spec.passes none F64.nan (F64.fin 999) 0 0) = [] := by
  decide

end Olxcli

namespace Olxcli

theorem fltConnsLoop_bad (up : String → String) (cs : List String) :
    ∀ acc : List FltConn, (∃ c ∈ cs, ∀ k, Noclear.canonicalize up c ≠ .ok k) →
      ∃ c ∈ cs, Noclear.fltConnsLoop up acc cs = .error (Err.unknownFaultConnection (up c)) := by
  induction cs with
  | nil => intro acc h; simp at h
  | cons c rest ih =>
    intro acc h
    cases hc : Noclear.canonicalize up c with
    | error e =>
      have he := canonicalize_error_eq up c e hc
      exact ⟨c, by simp, by simp [Noclear.fltConnsLoop, hc, he]⟩
    | ok k =>
      have h2 : ∃ d ∈ rest, ∀ k, Noclear.canonicalize up d ≠ .ok k := by
        obtain ⟨d, hd, hbad⟩ := h
        rcases List.mem_cons.mp hd with rfl | hmem
        · exact absurd hc (hbad k)
        · exact ⟨d, hmem, hbad⟩
      obtain ⟨d, hd, hres⟩ := ih (acc ++ [k]) h2
      exact ⟨d, List.mem_cons_of_mem _ hd, by simp [Noclear.fltConnsLoop, hc, hres]⟩

theorem fltConnsLoop_good (up : String → String) (cs : List String) :
    ∀ acc : List FltConn, (∀ c ∈ cs, ∃ k, Noclear.canonicalize up c = .ok k) →
      ∃ ks, Noclear.fltConnsLoop up acc cs = .ok (acc ++ ks) ∧
        cs.map (Noclear.canonicalize up) = ks.map Except.ok := by
  induction cs with
  | nil => intro acc _; exact ⟨[], by simp [Noclear.fltConnsLoop], rfl⟩
  | cons c rest ih =>
    intro acc h
    obtain ⟨k, hk⟩ := h c (by simp)
    obtain ⟨ks, h1, h2⟩ := ih (acc ++ [k]) (fun d hd => h d (List.mem_cons_of_mem _ hd))
    exact ⟨k :: ks, by simp [Noclear.fltConnsLoop, hk, h1], by simp [hk, h2]⟩

theorem busfaults_fltConnsLoop_eq (up : String → String) (cs : List String) :
    ∀ acc : List FltConn, Busfaults.fltConnsLoop up acc cs = Noclear.fltConnsLoop up acc cs := by
  induction cs with
  | nil => intro acc; rfl
  | cons c rest ih =>
    intro acc
    have hc : Busfaults.canonicalize up c = Noclear.canonicalize up c := rfl
    simp only [Busfaults.fltConnsLoop, Noclear.fltConnsLoop, hc]
    cases Noclear.canonicalize up c with
    | error e => rfl
    | ok k => exact ih (acc ++ [k])

theorem runNoClear_bad (h : Host) (eng : Engine) (fl : Noclear.Flags)
    (hbad : ∃ c ∈ fl.connFlag, ∀ k, Noclear.canonicalize h.ToUpper c ≠ .ok k) :
    ∃ e, Noclear.runNoClear h eng fl = Noclear.failEarly e := by
  obtain ⟨c, _, herr⟩ := fltConnsLoop_bad h.ToUpper fl.connFlag [] hbad
  unfold Noclear.runNoClear
  by_cases hf : fl.fileFlag = ""
  · exact ⟨Err.noInputFile, by simp [hf]⟩
  · cases hs : h.Stat fl.fileFlag with
    | error e => exact ⟨Err.host e, by simp [hf]⟩
    | ok isDir =>
      cases isDir with
      | true => exact ⟨Err.notAFile fl.fileFlag, by simp [hf]⟩
      | false =>
        by_cases hl : fl.connFlag.length = 0
        · exact ⟨Err.noFaultConnection, by simp [hf, hl]⟩
        · exact ⟨Err.unknownFaultConnection (h.ToUpper c), by simp [hf, hl, herr]⟩

theorem runBusFault_bad (h : Host) (eng : Engine) (fl : Busfaults.Flags)
    (hbad : ∃ c ∈ fl.connFlag, ∀ k, Busfaults.canonicalize h.ToUpper c ≠ .ok k) :
    ∃ e, Busfaults.runBusFault h eng fl = Busfaults.failEarly e := by
  obtain ⟨c, _, herr⟩ := fltConnsLoop_bad h.ToUpper fl.connFlag [] hbad
  rw [← busfaults_fltConnsLoop_eq] at herr
  unfold Busfaults.runBusFault
  by_cases hf : fl.fileFlag = ""
  · exact ⟨Err.noInputFile, by simp [hf]⟩
  · cases hs : h.Stat fl.fileFlag with
    | error e => exact ⟨Err.host e, by simp [hf]⟩
    | ok isDir =>
      cases isDir with
      | true => exact ⟨Err.notAFile fl.fileFlag, by simp [hf]⟩
      | false =>
        by_cases hl : fl.connFlag.length = 0
        · exact ⟨Err.noFaultConnection, by simp [hf, hl]⟩
        · exact ⟨Err.unknownFaultConnection (h.ToUpper c), by simp [hf, hl, herr]⟩

/-- C7: in both commands, a connection list with an element that is not a
recognised code makes the run return an error before any engine call: no call
is made, no result is collected and no row is written. A list whose elements
are all recognised is turned by the connection loop into the list of their
canonical connections, element by element, with the same length and order. -/
theorem C7_all_or_nothing (h : Host) (eng : Engine) (fl : Noclear.Flags)
    (flb : Busfaults.Flags) :
    ((∃ c ∈ fl.connFlag, ∀ k, Noclear.canonicalize h.ToUpper c ≠ .ok k) →
      (∃ e, (Noclear.runNoClear h eng fl).exit = Exit.error e) ∧
      (Noclear.runNoClear h eng fl).calls = [] ∧
      (Noclear.runNoClear h eng fl).results = [] ∧
      (Noclear.runNoClear h eng fl).rows = []) ∧
    ((∃ c ∈ flb.connFlag, ∀ k, Busfaults.canonicalize h.ToUpper c ≠ .ok k) →
      (∃ e, (Busfaults.runBusFault h eng flb).exit = Exit.error e) ∧
      (Busfaults.runBusFault h eng flb).calls = [] ∧
      (Busfaults.runBusFault h eng flb).results = [] ∧
      (Busfaults.runBusFault h eng flb).rows = []) ∧
    (∀ cs : List String, (∀ c ∈ cs, ∃ k, Noclear.canonicalize h.ToUpper c = .ok k) →
      ∃ ks, Noclear.fltConnsLoop h.ToUpper [] cs = .ok ks ∧
        Busfaults.fltConnsLoop h.ToUpper [] cs = .ok ks ∧
        cs.map (Noclear.canonicalize h.ToUpper) = ks.map Except.ok ∧
        ks.length = cs.length) ∧
    Noclear.fltConnsLoop asciiToUpper [] ["ag", "XG", "abc"] =
      .error (Err.unknownFaultConnection "XG") ∧
    Noclear.fltConnsLoop asciiToUpper [] ["ag", "cb", "abc"] =
      .ok [FltConn.AG, FltConn.BC, FltConn.ABC] := by
  refine ⟨fun hbad => ?_, fun hbad => ?_, fun cs hgood => ?_, by rfl, by rfl⟩
  · obtain ⟨e, he⟩ := runNoClear_bad h eng fl hbad
    rw [he]
    exact ⟨⟨e, rfl⟩, rfl, rfl, rfl⟩
  · obtain ⟨e, he⟩ := runBusFault_bad h eng flb hbad
    rw [he]
    exact ⟨⟨e, rfl⟩, rfl, rfl, rfl⟩
  · obtain ⟨ks, h1, h2⟩ := fltConnsLoop_good h.ToUpper cs [] hgood
    simp only [List.nil_append] at h1
    refine ⟨ks, h1, by rw [busfaults_fltConnsLoop_eq]; exact h1, h2, ?_⟩
    have := congrArg List.length h2
    simpa using this.symm

end Olxcli

namespace Olxcli

theorem appendEach_eq {α : Type} (ys : List α) : ∀ xs : List α, appendEach xs ys = xs ++ ys := by
  induction ys with
  | nil => intro xs; simp [appendEach]
  | cons y rest ih =>
    intro xs
    have := ih (xs ++ [y])
    simp only [appendEach, List.foldl_cons] at this ⊢
    rw [this]
    simp

theorem foldl_results {ρ α : Type} (f : St ρ → α → St ρ) (g : α → List ρ)
    (hf : ∀ st x, (f st x).results = st.results ++ g x) (l : List α) :
    ∀ st : St ρ, (l.foldl f st).results = st.results ++ l.flatMap g := by
  induction l with
  | nil => intro st; simp
  | cons x rest ih =>
    intro st
    rw [List.foldl_cons, ih, hf, List.flatMap_cons, List.append_assoc]

theorem flatMap_toList {α β : Type} (o : α → Option β) (l : List α) :
    l.flatMap (fun x => (o x).toList) = l.filterMap o := by
  induction l with
  | nil => rfl
  | cons x rest ih =>
    rw [List.flatMap_cons, ih]
    cases hx : o x <;> simp [List.filterMap_cons, hx]

theorem filterMap_flatMap {α β γ : Type} (f : α → Option β) (g : β → List γ) (l : List α) :
    (l.filterMap f).flatMap g =
      l.flatMap (fun x =>
        match f x with
        | none => []
        | some y => g y) := by
  induction l with
  | nil => rfl
  | cons x rest ih =>
    cases hx : f x <;> simp [List.filterMap_cons, List.flatMap_cons, hx, ih]

namespace Noclear

theorem branchBody_results (eng : Engine) (fl : Flags) (b : Bus) (conn : FltConn)
    (st : St result) (brHnd : Int) :
    (branchBody eng fl b conn st brHnd).results =
      st.results ++ (runResult eng fl b conn brHnd).toList := by
  unfold branchBody runResult
  cases hrun : eng.DoSteppedEvent brHnd (newSteppedEvent fl conn) with
  | error e => simp [St.call, St.log, hrun]
  | ok evs => simp [St.call, St.push, newResult, appendEach_eq, hrun]

theorem connBody_results (eng : Engine) (fl : Flags) (busHnd : Int) (b : Bus)
    (st : St result) (conn : FltConn) :
    (connBody eng fl busHnd b st conn).results = st.results ++
      (match runResult eng fl b conn busHnd with
       | none => []
       | some res =>
         res :: (if fl.branchesFlag then
                   (eng.branchHandles busHnd).filterMap (runResult eng fl b conn)
                 else [])) := by
  unfold connBody
  simp only [runResult]
  cases hrun : eng.DoSteppedEvent busHnd (newSteppedEvent fl conn) with
  | error e => simp [St.call, St.log, hrun]
  | ok evs =>
    cases hbr : fl.branchesFlag with
    | false => simp [St.call, St.push, newResult, appendEach_eq, hrun]
    | true =>
      simp only [Bool.not_true, Bool.false_eq_true, if_false, if_true]
      rw [foldl_results _ _ (branchBody_results eng fl b conn), flatMap_toList]
      simp [St.call, St.push, newResult, appendEach_eq, runResult]

theorem busBody_results (eng : Engine) (fl : Flags) (re : Option (String → Bool))
    (fltConns : List FltConn) (st : St result) (busHnd : Int) :
    (busBody eng fl re fltConns st busHnd).results = st.results ++
      (match eng.GetBus busHnd with
       | .error _ => []
       | .ok b =>
         if selected re fl.vminFlag fl.vmaxFlag fl.areaFlag fl.zoneFlag b then
           fltConns.flatMap (fun conn =>
             match runResult eng fl b conn busHnd with
             | none => []
             | some res =>
               res :: (if fl.branchesFlag then
                         (eng.branchHandles busHnd).filterMap (runResult eng fl b conn)
                       else []))
         else []) := by
  unfold busBody
  cases hb : eng.GetBus busHnd with
  | error e => simp [St.call, St.log, hb]
  | ok b =>
    cases hsel : selected re fl.vminFlag fl.vmaxFlag fl.areaFlag fl.zoneFlag b with
    | false => simp [St.call, hsel]
    | true =>
      simp only [hsel, Bool.not_true, Bool.false_eq_true, if_false, if_true]
      rw [foldl_results _ _ (connBody_results eng fl busHnd b)]
      simp [St.call]

theorem busLoop_results (eng : Engine) (fl : Flags) (re : Option (String → Bool))
    (fltConns : List FltConn) (st : St result) :
    (busLoop eng fl re fltConns st).results = st.results ++
      (selectedBuses eng re fl).flatMap (fun hb =>
        fltConns.flatMap (fun conn =>
          match runResult eng fl hb.2 conn hb.1 with
          | none => []
          | some res =>
            res :: (if fl.branchesFlag then
                      (eng.branchHandles hb.1).filterMap (runResult eng fl hb.2 conn)
                    else []))) := by
  unfold busLoop selectedBuses
  rw [foldl_results _ _ (busBody_results eng fl re fltConns), filterMap_flatMap]
  congr 1
  apply List.flatMap_congr
  intro hnd _
  cases eng.GetBus hnd with
  | error e => rfl
  | ok b =>
    cases hsel : selected re fl.vminFlag fl.vmaxFlag fl.areaFlag fl.zoneFlag b <;> simp [hsel]

/-- Once the configuration is accepted and the case is loaded, `runNoClear` is
the bus loop over the canonical connections followed by the classification
and the report. -/
theorem runNoClear_configured (h : Host) (eng : Engine) (fl : Flags) (ks : List FltConn)
    (re : Option (String → Bool)) (hfile : fl.fileFlag ≠ "")
    (hstat : h.Stat fl.fileFlag = .ok false) (hne : fl.connFlag ≠ [])
    (hks : fltConnsLoop h.ToUpper [] fl.connFlag = .ok ks)
    (hre : compileFlag h fl.regexFlag = .ok re)
    (hload : eng.LoadDataFile fl.fileFlag = none) :
    runNoClear h eng fl =
      finish h fl (busLoop eng fl re ks
        { calls := [EngineCall.NewClient, EngineCall.LoadDataFile fl.fileFlag],
          stderr := [], results := [] }) := by
  unfold runNoClear
  simp [hfile, hstat, hne, hks, hre, hload]

/-- C8 (as amended): the results the bus loop collects are, for each selected
bus in order and each canonical connection in order: nothing when the
bus-anchored run fails (the branches of that bus and connection are then not
run); otherwise the result of the bus-anchored run followed, when the
branches option is enabled, by the results of the branch-anchored runs that
succeed, in branch order. A failed branch-anchored run contributes nothing and
stops no other run. Every result carries the originating bus, the connection
and the steps of its run. After a failed bus-anchored run the loop body has
made that one engine call, logged the error and collected nothing. -/
theorem C8_stepped_event_results (eng : Engine) (fl : Flags) (re : Option (String → Bool))
    (fltConns : List FltConn) (st : St result) :
    (busLoop eng fl re fltConns st).results = st.results ++
      (selectedBuses eng re fl).flatMap (fun hb =>
        fltConns.flatMap (fun conn =>
          match runResult eng fl hb.2 conn hb.1 with
          | none => []
          | some res =>
            res :: (if fl.branchesFlag then
                      (eng.branchHandles hb.1).filterMap (runResult eng fl hb.2 conn)
                    else []))) ∧
    (∀ (b : Bus) (conn : FltConn) (hnd : Int),
      (∀ e, eng.DoSteppedEvent hnd (newSteppedEvent fl conn) = .error e →
        runResult eng fl b conn hnd = none) ∧
      (∀ steps, eng.DoSteppedEvent hnd (newSteppedEvent fl conn) = .ok steps →
        ∃ res, runResult eng fl b conn hnd = some res ∧ res.b = b ∧ res.conn = conn ∧
          res.steps = steps ∧ res.cleared = false ∧ res.note = "")) ∧
    (∀ (busHnd : Int) (b : Bus) (conn : FltConn) (s : St result) (e : String),
      eng.DoSteppedEvent busHnd (newSteppedEvent fl conn) = .error e →
      connBody eng fl busHnd b s conn =
        { calls := s.calls ++ [EngineCall.DoSteppedEvent busHnd (newSteppedEvent fl conn)],
          stderr := s.stderr ++ [e], results := s.results }) := by
  refine ⟨busLoop_results eng fl re fltConns st, ?_, ?_⟩
  rotate_left
  · intro busHnd b conn s e he
    simp [connBody, he, St.call, St.log]
  intro b conn hnd
  constructor
  · intro e he
    simp [runResult, he]
  · intro steps hs
    exact ⟨newResult b conn (newSteppedEvent fl conn) steps, by simp [runResult, hs],
      rfl, rfl, rfl, rfl, rfl⟩

/-- C8, counterexample: the branches option is enabled, the run anchored at the
bus fails and the run anchored at its branch would succeed. The stated result
set holds the branch result, but the loop collects nothing and never runs the
stepped event at the branch. -/
theorem C8_counterexample_failed_bus_run :
    Spec.steppedEventResults (Examples.engine none (some Examples.stepsOkay)) none
        (Examples.ncFlags ["AG"] true false) [FltConn.AG] =
      [Examples.resultOf Examples.stepsOkay] ∧
    (busLoop (Examples.engine none (some Examples.stepsOkay))
        (Examples.ncFlags ["AG"] true false) none [FltConn.AG]
        { calls := [], stderr := [], results := [] }).results = [] ∧
    (runNoClear Examples.host (Examples.engine none (some Examples.stepsOkay))
        (Examples.ncFlags ["AG"] true false)).results = [] ∧
    (runNoClear Examples.host (Examples.engine none (some Examples.stepsOkay))
        (Examples.ncFlags ["AG"] true false)).calls =
      [EngineCall.NewClient, EngineCall.LoadDataFile "case.olr", EngineCall.NextEquipment,
       EngineCall.GetBus 1, EngineCall.DoSteppedEvent 1 (Examples.cfgOf FltConn.AG),
       EngineCall.Release] := by
  decide

end Noclear

end Olxcli

namespace Olxcli

namespace Busfaults

theorem faultWriteAll_fired (h : Host) (wr : List String → Row) (rs : List result) :
    ∀ rows : List Row,
      (writeAll h wr { once := true, rows := rows } rs).rows =
        rows ++ rs.map (fun x => wr (csvValues h x)) := by
  induction rs with
  | nil => intro rows; simp [writeAll]
  | cons r rest ih =>
    intro rows
    have := ih (rows ++ [wr (csvValues h r)])
    simp only [writeAll] at this
    simp [writeAll, writeResult, this]

theorem faultWriteAll_fresh (h : Host) (wr : List String → Row) (r : result) (rest : List result) :
    (writeAll h wr { once := false, rows := [] } (r :: rest)).rows =
      wr (csvHeader r) :: (r :: rest).map (fun x => wr (csvValues h x)) := by
  have := faultWriteAll_fired h wr rest [wr (csvHeader r), wr (csvValues h r)]
  simp only [writeAll] at this
  simp [writeAll, writeResult, this]

end Busfaults

namespace Noclear

theorem writeAll_fired (h : Host) (wr : List String → Row) (rs : List result)
    (hsteps : ∀ x ∈ rs, x.steps ≠ []) :
    ∀ rows : List Row, ∃ data : List Row,
      (writeAll h wr { once := true, rows := rows } rs).map Writer.rows = some (rows ++ data) ∧
      rs.map (fun x => (csvValues h x).map wr) = data.map some := by
  induction rs with
  | nil => intro rows; exact ⟨[], by simp [writeAll], rfl⟩
  | cons r rest ih =>
    intro rows
    have hr : r.steps ≠ [] := hsteps r (by simp)
    obtain ⟨s0, tl, hst⟩ := List.exists_cons_of_ne_nil hr
    have hv : ∃ v, csvValues h r = some v := by simp [csvValues, hst]
    obtain ⟨v, hv⟩ := hv
    obtain ⟨data, h1, h2⟩ := ih (fun x hx => hsteps x (List.mem_cons_of_mem _ hx))
      (rows ++ [wr v])
    refine ⟨wr v :: data, ?_, ?_⟩
    · simp only [writeAll, writeResult, hv, if_true]
      rw [h1]
      simp
    · simp [hv, h2]

theorem writeAll_fresh (h : Host) (wr : List String → Row) (r : result) (rest : List result)
    (hsteps : ∀ x ∈ r :: rest, x.steps ≠ []) :
    ∃ data : List Row,
      (writeAll h wr { once := false, rows := [] } (r :: rest)).map Writer.rows =
        some (wr (csvHeader r) :: data) ∧
      (r :: rest).map (fun x => (csvValues h x).map wr) = data.map some := by
  have hr : r.steps ≠ [] := hsteps r (by simp)
  obtain ⟨s0, tl, hst⟩ := List.exists_cons_of_ne_nil hr
  have hv : ∃ v, csvValues h r = some v := by simp [csvValues, hst]
  obtain ⟨v, hv⟩ := hv
  obtain ⟨data, h1, h2⟩ := writeAll_fired h wr rest
    (fun x hx => hsteps x (List.mem_cons_of_mem _ hx)) [wr (csvHeader r), wr v]
  refine ⟨wr v :: data, ?_, ?_⟩
  · simp only [writeAll, writeResult, hv, Bool.false_eq_true, if_false, List.nil_append,
      List.singleton_append]
    rw [h1]
    simp
  · simp [hv, h2]

end Noclear

/-- C9 (as amended): in both commands and in both formats (rows are written by
`csvRow` when the flags select CSV and by `tabRow` otherwise), a report of no
result is empty, without a header row; a report of `N >= 1` results is the
header row of the first result followed by the `N` rows of values, in the
order of the results. In `noclear` this holds when every result has at least
one step. -/
theorem C9_report_rows (h : Host) (fl : Noclear.Flags) (flb : Busfaults.Flags) :
    Busfaults.render h flb [] = [] ∧
    Noclear.render h fl [] = some [] ∧
    (∀ (r : Busfaults.result) (rest : List Busfaults.result),
      Busfaults.render h flb (r :: rest) =
        (if isCsv h flb.outputFlag flb.formatFlag then csvRow else tabRow)
            (Busfaults.csvHeader r) ::
          (r :: rest).map (fun x =>
            (if isCsv h flb.outputFlag flb.formatFlag then csvRow else tabRow)
              (Busfaults.csvValues h x)) ∧
      (Busfaults.render h flb (r :: rest)).length = (r :: rest).length + 1) ∧
    (∀ (r : Noclear.result) (rest : List Noclear.result),
      (∀ x ∈ r :: rest, x.steps ≠ []) →
      ∃ data,
        Noclear.render h fl (r :: rest) =
          some ((if isCsv h fl.outputFlag fl.formatFlag then csvRow else tabRow)
            (Noclear.csvHeader r) :: data) ∧
        (r :: rest).map (fun x => (Noclear.csvValues h x).map
            (if isCsv h fl.outputFlag fl.formatFlag then csvRow else tabRow)) =
          data.map some ∧
        data.length = (r :: rest).length) := by
  refine ⟨?_, ?_, ?_, ?_⟩
  · unfold Busfaults.render
    split <;> rfl
  · unfold Noclear.render
    split <;> rfl
  · intro r rest
    unfold Busfaults.render
    cases hcsv : isCsv h flb.outputFlag flb.formatFlag <;>
      simp [Busfaults.faultWriteAll_fresh]
  · intro r rest hsteps
    unfold Noclear.render
    cases hcsv : isCsv h fl.outputFlag fl.formatFlag
    · obtain ⟨data, h1, h2⟩ := Noclear.writeAll_fresh h tabRow r rest hsteps
      have hl := congrArg List.length h2
      exact ⟨data, by simpa using h1, by simpa using h2, by simpa using hl.symm⟩
    · obtain ⟨data, h1, h2⟩ := Noclear.writeAll_fresh h csvRow r rest hsteps
      have hl := congrArg List.length h2
      exact ⟨data, by simpa using h1, by simpa using h2, by simpa using hl.symm⟩

/-- C9, counterexample: for `N = 0` results neither command writes a header row,
in the tab format or in the CSV format: the report is empty. -/
theorem C9_counterexample_no_results :
    Busfaults.render Examples.host (Examples.bfFlags ["AG"] false) [] = [] ∧
    Busfaults.render Examples.host
      { Examples.bfFlags ["AG"] false with formatFlag := "csv" } [] = [] ∧
    Noclear.render Examples.host (Examples.ncFlags ["AG"] false false) [] = some [] ∧
    Noclear.render Examples.host
      { Examples.ncFlags ["AG"] false false with formatFlag := "csv" } [] = some [] ∧
    (Busfaults.runBusFault Examples.host
      { Examples.engine none none with busHandles := [] }
      (Examples.bfFlags ["AG"] false)).exit = Exit.ok ∧
    (Busfaults.runBusFault Examples.host
      { Examples.engine none none with busHandles := [] }
      (Examples.bfFlags ["AG"] false)).rows = [] := by
  decide

end Olxcli

namespace Olxcli

namespace Busfaults

theorem faultBody_results (eng : Engine) (fl : Flags) (hnd : Int) (b : Bus)
    (st : St result) (i : Nat) :
    (faultBody eng fl hnd b st i).results =
      st.results ++ (eventResult eng fl hnd b i).toList := by
  unfold faultBody eventResult
  cases hv : eng.GetSCVoltage fl.seqFlag hnd i with
  | error e => simp [St.call, St.log, hv]
  | ok v =>
    obtain ⟨va, vb, vc⟩ := v
    cases hc : eng.GetSCCurrent fl.seqFlag hnd i with
    | error e => simp [St.call, St.log, hv, hc]
    | ok c =>
      obtain ⟨ia, ib, ic⟩ := c
      simp [St.call, St.push, hv, hc]

theorem faultBusBody_results (eng : Engine) (fl : Flags) (re : Option (String → Bool))
    (fltConns : List FltConn) (st : St result) (hnd : Int) :
    (busBody eng fl re fltConns st hnd).results = st.results ++
      (match eng.GetBus hnd with
       | .error _ => []
       | .ok b =>
         if selected re fl.vminFlag fl.vmaxFlag fl.areaFlag fl.zoneFlag b then
           (match eng.DoFault hnd (newFaultConfig fl fltConns) with
            | .error _ => []
            | .ok indices => indices.filterMap (eventResult eng fl hnd b))
         else []) := by
  unfold busBody
  cases hb : eng.GetBus hnd with
  | error e => simp [St.call, St.log, hb]
  | ok b =>
    cases hsel : selected re fl.vminFlag fl.vmaxFlag fl.areaFlag fl.zoneFlag b with
    | false => simp [St.call, hsel]
    | true =>
      simp only [hsel, Bool.not_true, Bool.false_eq_true, if_false, if_true]
      cases hf : eng.DoFault hnd (newFaultConfig fl fltConns) with
      | error e => simp [St.call, St.log, hf]
      | ok indices =>
        simp only [hf]
        rw [foldl_results _ _ (faultBody_results eng fl hnd b), flatMap_toList]
        simp [St.call]

theorem faultBusLoop_results (eng : Engine) (fl : Flags) (re : Option (String → Bool))
    (fltConns : List FltConn) (st : St result) :
    (busLoop eng fl re fltConns st).results = st.results ++
      (selectedBuses eng re fl).flatMap (fun hb =>
        match eng.DoFault hb.1 (newFaultConfig fl fltConns) with
        | .error _ => []
        | .ok indices => indices.filterMap (eventResult eng fl hb.1 hb.2)) := by
  unfold busLoop selectedBuses
  rw [foldl_results _ _ (faultBusBody_results eng fl re fltConns), filterMap_flatMap]
  congr 1
  apply List.flatMap_congr
  intro hnd _
  cases eng.GetBus hnd with
  | error e => rfl
  | ok b =>
    cases hsel : selected re fl.vminFlag fl.vmaxFlag fl.areaFlag fl.zoneFlag b <;> simp [hsel]

/-- Once the configuration is accepted and the case is loaded, `runBusFault`
is the bus loop over the canonical connections followed by the report. -/
theorem runBusFault_configured (h : Host) (eng : Engine) (fl : Flags) (ks : List FltConn)
    (re : Option (String → Bool)) (hfile : fl.fileFlag ≠ "")
    (hstat : h.Stat fl.fileFlag = .ok false) (hne : fl.connFlag ≠ [])
    (hks : fltConnsLoop h.ToUpper [] fl.connFlag = .ok ks)
    (hre : compileFlag h fl.regexFlag = .ok re)
    (hload : eng.LoadDataFile fl.fileFlag = none) :
    runBusFault h eng fl =
      finish h fl (busLoop eng fl re ks
        { calls := [EngineCall.NewClient, EngineCall.LoadDataFile fl.fileFlag],
          stderr := [], results := [] }) := by
  unfold runBusFault
  simp [hfile, hstat, hne, hks, hre, hload]

/-- C10: the results the bus loop of `runBusFault` collects are, for each
selected bus in order: nothing when applying the fault fails; otherwise one
result per fault event whose voltage and current are both retrieved, in event
order. An event whose voltage or current cannot be retrieved contributes
nothing and drops no other event. Each result carries its bus, the fault
description of its event, the run-wide sequence flag and the retrieved
phasors. In the example run the event whose voltage fails is skipped and its
two siblings are reported. -/
theorem C10_bus_fault_results (eng : Engine) (fl : Flags) (re : Option (String → Bool))
    (fltConns : List FltConn) (st : St result) :
    (busLoop eng fl re fltConns st).results = st.results ++
      (selectedBuses eng re fl).flatMap (fun hb =>
        match eng.DoFault hb.1 (newFaultConfig fl fltConns) with
        | .error _ => []
        | .ok indices => indices.filterMap (eventResult eng fl hb.1 hb.2)) ∧
    (∀ (hnd : Int) (b : Bus) (i : Nat),
      (∀ e, eng.GetSCVoltage fl.seqFlag hnd i = .error e → eventResult eng fl hnd b i = none) ∧
      (∀ e, eng.GetSCCurrent fl.seqFlag hnd i = .error e → eventResult eng fl hnd b i = none) ∧
      (∀ v c, eng.GetSCVoltage fl.seqFlag hnd i = .ok v →
        eng.GetSCCurrent fl.seqFlag hnd i = .ok c →
        eventResult eng fl hnd b i =
          some { b := b, fd := eng.FaultDescription hnd i, seq := fl.seqFlag,
                 va := v.1, vb := v.2.1, vc := v.2.2, ia := c.1, ib := c.2.1, ic := c.2.2 })) ∧
    (runBusFault Examples.host (Examples.engine none none) (Examples.bfFlags ["abc"] false)).results =
      [{ b := Examples.bus1, fd := "first", seq := false,
         va := Examples.phasor 1, vb := Examples.phasor 2, vc := Examples.phasor 3,
         ia := Examples.phasor 4, ib := Examples.phasor 5, ic := Examples.phasor 6 },
       { b := Examples.bus1, fd := "third", seq := false,
         va := Examples.phasor 1, vb := Examples.phasor 2, vc := Examples.phasor 3,
         ia := Examples.phasor 4, ib := Examples.phasor 5, ic := Examples.phasor 6 }] := by
  refine ⟨faultBusLoop_results eng fl re fltConns st, ?_, by decide⟩
  intro hnd b i
  refine ⟨fun e he => ?_, fun e he => ?_, fun v c hv hc => ?_⟩
  · simp [eventResult, he]
  · unfold eventResult
    cases hv : eng.GetSCVoltage fl.seqFlag hnd i <;> simp [he]
  · simp [eventResult, hv, hc]

end Busfaults

end Olxcli
